import Mathlib

/-!
# PlacesAutocompleteInput

A shallow embedding of `src/PlacesAutocompleteInput.js`: key resolution, the debounced
text-change handler, the autocomplete request with its cancel token, the selection flow and the
unmount cleanup, as an explicit state machine over the component state, its two refs, the
armed timeouts and the pending promises.  Host callbacks, console output and HTTP requests are
recorded in a log of observable effects.
-/

namespace PlacesAutocomplete

/-! ## JavaScript values -/

/-- JavaScript values that reach the component: props, module objects, parsed response bodies.
Numbers are finite and only ever tested for truthiness or passed through. -/
inductive JsVal where
  | undefined
  | null
  | bool (b : Bool)
  | num (x : ℚ)
  | str (s : String)
  | arr (items : List JsVal)
  | obj (fields : List (String × JsVal))

/-- Error objects: `Error` instances (created by the component or rejected by axios, with their
message) and the `TypeError` the engine raises for a property read on `null` or `undefined`. -/
inductive JsError where
  | error (message : String)
  | typeError
  deriving DecidableEq

/-- Truthiness of a value, as tested by `!v`, `v || w`, `v && w` and `if (v)`. -/
def JsVal.truthy : JsVal → Bool
  | .undefined => false
  | .null => false
  | .bool b => b
  | .num x => decide (x ≠ 0)
  | .str s => decide (s ≠ "")
  | .arr _ => true
  | .obj _ => true

/-- The values `null` and `undefined`, on which `?.` short-circuits and `??` falls through. -/
def JsVal.nullish : JsVal → Bool
  | .undefined => true
  | .null => true
  | _ => false

/-- Property read `v.name` on a value that is not nullish.  The names read by the component
(`manifest`, `expoConfig`, `extra`, `env`, `predictions`, `result`, `geometry`, `location`,
`lat`, `lng`, `formatted_address`, `description`, `place_id` and the key names) are not built-in
properties of primitives or arrays, so only objects can hold them. -/
def JsVal.getProp : JsVal → String → JsVal
  | .obj fields, name => (fields.lookup name).getD .undefined
  | _, _ => .undefined

/-- Optional chaining `v?.name`. -/
def JsVal.optProp (v : JsVal) (name : String) : JsVal :=
  if v.nullish then .undefined else v.getProp name

/-- Plain member access `v.name`, which throws a `TypeError` on `null` and `undefined`. -/
def JsVal.member (v : JsVal) (name : String) : Except JsError JsVal :=
  if v.nullish then .error .typeError else .ok (v.getProp name)

/-- The operator `a || b`. -/
def JsVal.or (a b : JsVal) : JsVal := if a.truthy then a else b

/-- The operator `a ?? b`. -/
def JsVal.coalesce (a b : JsVal) : JsVal := if a.nullish then b else a

/-- Strict comparison `v === s` against a string literal. -/
def JsVal.strictEqStr : JsVal → String → Bool
  | .str t, s => t == s
  | _, _ => false

/-- The `length` of a JavaScript string: its number of UTF-16 code units. -/
def utf16Length (s : String) : Nat :=
  (s.data.map fun c => if c.toNat < 65536 then 1 else 2).sum

/-! ## Props and module-level bindings -/

/-- The props of the component that take part in its behaviour.  A prop left out by the host is
`undefined` (`none` for the two numeric props); of a host callback only whether it is supplied
is recorded, its calls appear in the log of effects.  The numeric props are finite numbers, and
props keep their values over the life of the instance. -/
structure Props where
  apiKey : JsVal
  minChars : Option ℚ
  language : JsVal
  types : JsVal
  debounceMs : Option ℚ
  hasOnPlaceSelect : Bool
  hasSetOuterRes : Bool
  hasOnError : Bool

/-- What the module reads from its surroundings: the binding `ExpoConstants` (left `undefined`
when `require` of the manifest module throws), the global `process`, and the session token drawn
once per component instance. -/
structure Ambient where
  ExpoConstants : JsVal
  process : JsVal
  sessionToken : String

def DEFAULT_DEBOUNCE_MS : ℚ := 250

/-- Destructuring default `minChars = 2`. -/
def Props.minCharsOr (P : Props) : ℚ := P.minChars.getD 2

/-- Destructuring default `debounceMs = DEFAULT_DEBOUNCE_MS`. -/
def Props.debounceMsOr (P : Props) : ℚ := P.debounceMs.getD DEFAULT_DEBOUNCE_MS

/-- A destructuring default applies exactly when the prop is `undefined`. -/
def JsVal.withDefault : JsVal → JsVal → JsVal
  | .undefined, d => d
  | v, _ => v

/-- Destructuring default of `language`, the string en. -/
def Props.languageOr (P : Props) : JsVal := P.language.withDefault (.str "en")

/-- Destructuring default of `types`, the string geocode. -/
def Props.typesOr (P : Props) : JsVal := P.types.withDefault (.str "geocode")

/-! ## Key resolution -/

/-- The placeholder left in the manifest when the build did not substitute the key. -/
def PLACEHOLDER : String := "$GOOGLE_MAPS_API_KEY"

/-- Environment read `process?.env?.NAME`. -/
def Ambient.envVar (A : Ambient) (name : String) : JsVal :=
  (A.process.optProp "env").optProp name

/-- The value `rawExtra` of `getExpoKey`:
`(ExpoConstants.manifest ?? ExpoConstants.expoConfig)?.extra?.GOOGLE_PLACES_API_KEY`. -/
def Ambient.rawExtra (A : Ambient) : JsVal :=
  let manifest := (A.ExpoConstants.getProp "manifest").coalesce (A.ExpoConstants.getProp "expoConfig")
  (manifest.optProp "extra").optProp "GOOGLE_PLACES_API_KEY"

/-- The function `getExpoKey`. -/
def getExpoKey (A : Ambient) : JsVal :=
  if !A.ExpoConstants.truthy then .undefined
  else
    let rawExtra := A.rawExtra
    if rawExtra.truthy && !rawExtra.strictEqStr PLACEHOLDER then rawExtra
    else A.envVar "EXPO_PUBLIC_GOOGLE_MAPS_API_KEY"

/-- The constant `resolvedApiKey` of the component body. -/
def resolvedApiKey (P : Props) (A : Ambient) : JsVal :=
  ((P.apiKey.or (getExpoKey A)).or (A.envVar "GOOGLE_PLACES_API_KEY")).or
    (A.envVar "REACT_NATIVE_GOOGLE_PLACES_API_KEY")

/-! ## Observable effects and machine state -/

/-- Effects visible outside the component, in the order they happen. -/
inductive Event where
  | consoleWarn (label : String) (err : Option JsError)
  | onError (err : JsError)
  | setOuterRes (predictions : JsVal)
  | onPlaceSelect (selection : JsVal)
  | autocompleteGet (input : String) (key language types : JsVal) (sessiontoken : String)
  | detailsGet (place_id key : JsVal) (fields sessiontoken : String)

/-- Whether an effect is an HTTP request. -/
def Event.isRequest : Event → Bool
  | .autocompleteGet .. => true
  | .detailsGet .. => true
  | _ => false

/-- A timeout armed by `setTimeout`: its handle, the `input` its closure captured, its delay. -/
structure Timer where
  id : Nat
  input : String
  delay : ℚ

/-- A pending autocomplete promise with its cancel source; `cancelled` is set once `cancel` has
been called on the source, after which axios rejects the promise with a `Cancel`. -/
structure AcRequest where
  id : Nat
  input : String
  cancelled : Bool

/-- A pending details promise, with the `item` its `handleSelect` call was given. -/
structure DetailsRequest where
  id : Nat
  item : JsVal

/-- How a request promise settles when it was not cancelled: a response with its parsed `data`,
or a rejection with an error. -/
inductive Outcome where
  | success (data : JsVal)
  | failure (err : JsError)

/-- The component instance: its three state cells, its two refs, whether it is still mounted,
the timeouts and promises that the runtime holds for it, and the log of effects so far. -/
structure State where
  query : JsVal
  results : JsVal
  loading : Bool
  debounceTimer : Option Nat
  inFlight : Option Nat
  mounted : Bool
  timers : List Timer
  acPending : List AcRequest
  detPending : List DetailsRequest
  nextId : Nat
  log : List Event

/-- The state after the first render. -/
def State.init : State :=
  { query := .str "", results := .arr [], loading := false, debounceTimer := none,
    inFlight := none, mounted := true, timers := [], acPending := [], detPending := [],
    nextId := 1, log := [] }

/-! ## State setters

React ignores a state update made after the component has unmounted. -/

def setQuery (s : State) (v : JsVal) : State :=
  if s.mounted then { s with query := v } else s

def setResults (s : State) (v : JsVal) : State :=
  if s.mounted then { s with results := v } else s

def setLoading (s : State) (b : Bool) : State :=
  if s.mounted then { s with loading := b } else s

def emit (s : State) (es : List Event) : State :=
  { s with log := s.log ++ es }

/-- The call `onError?.(err)`. -/
def callOnError (P : Props) (err : JsError) : List Event :=
  if P.hasOnError then [.onError err] else []

/-! ## The component functions -/

/-- The function `clearDebounce`.  A timer handle is always truthy. -/
def clearDebounce (s : State) : State :=
  match s.debounceTimer with
  | some id => { s with timers := s.timers.filter (fun t => t.id != id), debounceTimer := none }
  | none => s

/-- The guard `!input || input.length < minChars` of `fetchPlaces`. -/
def tooShort (P : Props) (input : String) : Prop :=
  input = "" ∨ (utf16Length input : ℚ) < P.minCharsOr

instance tooShortDecidable (P : Props) (input : String) : Decidable (tooShort P input) := by
  unfold tooShort; infer_instance

/-- The synchronous part of `fetchPlaces`, the `onChangeText` handler. -/
def fetchPlaces (P : Props) (s : State) (input : String) : State :=
  let s1 := clearDebounce (setQuery s (.str input))
  if tooShort P input then setResults s1 (.arr [])
  else
    { s1 with
      debounceTimer := some s1.nextId
      timers := s1.timers ++ [⟨s1.nextId, input, max 0 P.debounceMsOr⟩]
      nextId := s1.nextId + 1 }

def MISSING_KEY_MSG : String :=
  "Google Places API key is missing. Pass apiKey prop or set Expo/ENV key."

/-- The call `source.cancel(...)` on the cancel source held in the `inFlight` ref: a request
that is still pending will reject with a `Cancel`; a settled one is unaffected. -/
def cancelInFlight (s : State) : State :=
  match s.inFlight with
  | some rid =>
    { s with acPending := s.acPending.map fun r => if r.id = rid then { r with cancelled := true } else r }
  | none => s

/-- The timeout callback of `fetchPlaces` up to its `await`, for the captured `input`. -/
def onDebounce (P : Props) (A : Ambient) (s : State) (input : String) : State :=
  let key := resolvedApiKey P A
  if !key.truthy then
    emit s ([.consoleWarn MISSING_KEY_MSG none] ++ callOnError P (.error MISSING_KEY_MSG))
  else
    let s1 := cancelInFlight (setLoading s true)
    { s1 with
      inFlight := some s1.nextId
      acPending := s1.acPending ++ [⟨s1.nextId, input, false⟩]
      nextId := s1.nextId + 1
      log := s1.log ++ [.autocompleteGet input key P.languageOr P.typesOr A.sessionToken] }

/-- The value `res?.data?.predictions ?? []` for a response with the given `data`. -/
def predictionsOf (data : JsVal) : JsVal :=
  (data.optProp "predictions").coalesce (.arr [])

/-- The timeout callback of `fetchPlaces` after its `await`: the `try` tail, `catch` and
`finally`, for a pending request `r` that settles with `o`. -/
def onAutocompleteSettled (P : Props) (s : State) (r : AcRequest) (o : Outcome) : State :=
  if r.cancelled then
    -- rejected with a Cancel: `axios.isCancel(err)` holds, only `finally` runs
    setLoading s false
  else
    match o with
    | .success data =>
      let predictions := predictionsOf data
      let s1 := setResults s predictions
      let s2 := emit s1 (if P.hasSetOuterRes then [.setOuterRes predictions] else [])
      setLoading s2 false
    | .failure err =>
      let s1 := emit s ([.consoleWarn "Autocomplete error:" (some err)] ++ callOnError P err)
      setLoading s1 false

/-- The function `fetchPlaceDetails` after its `await`: the effects it causes and the value
its promise resolves to. -/
def fetchPlaceDetailsSettled (P : Props) (o : Outcome) : List Event × JsVal :=
  match o with
  | .success data =>
    match data.member "result" with
    | .ok result => ([], result)
    | .error err => ([.consoleWarn "Place details error:" (some err)] ++ callOnError P err, .null)
  | .failure err => ([.consoleWarn "Place details error:" (some err)] ++ callOnError P err, .null)

/-- The argument `handleSelect` passes to `onPlaceSelect`. -/
def selectionOf (item details : JsVal) : JsVal :=
  let location := (details.getProp "geometry").getProp "location"
  .obj [("description", item.getProp "description"),
        ("location", .obj [("lat", location.getProp "lat"), ("lng", location.getProp "lng")]),
        ("address", details.getProp "formatted_address")]

/-- The guard `details?.geometry?.location` of `handleSelect`. -/
def hasLocation (details : JsVal) : Bool :=
  ((details.optProp "geometry").optProp "location").truthy

/-- The function `handleSelect` up to its `await`: reading `item.place_id` throws on a nullish
item, otherwise the details request is issued. -/
def handleSelect (P : Props) (A : Ambient) (s : State) (item : JsVal) : State :=
  match item.member "place_id" with
  | .error _ => s
  | .ok placeId =>
    { s with
      detPending := s.detPending ++ [⟨s.nextId, item⟩]
      nextId := s.nextId + 1
      log := s.log ++ [.detailsGet placeId (resolvedApiKey P A) "geometry,formatted_address" A.sessionToken] }

/-- The function `handleSelect` after its `await`, for the details request of `item` settling
with `o`. -/
def onDetailsSettled (P : Props) (s : State) (item : JsVal) (o : Outcome) : State :=
  let (es, details) := fetchPlaceDetailsSettled P o
  let s1 := emit s es
  if hasLocation details then
    let s2 := emit s1 (if P.hasOnPlaceSelect then [.onPlaceSelect (selectionOf item details)] else [])
    setResults (setQuery s2 (item.getProp "description")) (.arr [])
  else s1

/-- The cleanup returned by the mount effect, followed by the unmount itself. -/
def unmount (s : State) : State :=
  { cancelInFlight (clearDebounce s) with mounted := false }

/-! ## The event loop -/

/-- What can happen to a component instance: the user edits the text, an armed timeout fires,
a pending autocomplete or details promise settles, the user presses a suggestion row, the host
unmounts the component. -/
inductive Action where
  | changeText (text : String)
  | timerFire (id : Nat)
  | autocompleteSettle (id : Nat) (o : Outcome)
  | press (row : Nat)
  | detailsSettle (id : Nat) (o : Outcome)
  | unmount

/-- One turn of the event loop.  An action that cannot happen in the state (a timer or request
that is not pending, a row that is not rendered, user input on an unmounted component) leaves
the state as it is. -/
def step (P : Props) (A : Ambient) (s : State) : Action → State
  | .changeText text => if s.mounted then fetchPlaces P s text else s
  | .timerFire id =>
    match s.timers.find? (fun t => t.id == id) with
    | some t => onDebounce P A { s with timers := s.timers.filter (fun t => t.id != id) } t.input
    | none => s
  | .autocompleteSettle id o =>
    match s.acPending.find? (fun r => r.id == id) with
    | some r => onAutocompleteSettled P { s with acPending := s.acPending.filter (fun r => r.id != id) } r o
    | none => s
  | .press row =>
    if s.mounted then
      match s.results with
      | .arr items =>
        match items.get? row with
        | some item => handleSelect P A s item
        | none => s
      | _ => s
    else s
  | .detailsSettle id o =>
    match s.detPending.find? (fun r => r.id == id) with
    | some r => onDetailsSettled P { s with detPending := s.detPending.filter (fun r => r.id != id) } r.item o
    | none => s
  | .unmount => unmount s

/-- The state after a sequence of actions. -/
def run (P : Props) (A : Ambient) (s : State) (acts : List Action) : State :=
  acts.foldl (step P A) s

/-- States the component can be in: those reached from the first render. -/
def Reachable (P : Props) (A : Ambient) (s : State) : Prop :=
  ∃ acts, run P A State.init acts = s

/-! ## Key resolution as the specification words it -/

/-- Spec wording: of a list of sources in priority order, the first non-empty one wins. -/
def firstNonEmpty (sources : List JsVal) : Option JsVal := sources.find? JsVal.truthy

/-- Spec wording: the manifest credential counts only when it is not the placeholder. -/
def manifestKey (A : Ambient) : JsVal :=
  if A.rawExtra.strictEqStr PLACEHOLDER then .undefined else A.rawExtra

/-- Spec wording: the five credential sources in their priority order. -/
def specSources (P : Props) (A : Ambient) : List JsVal :=
  [P.apiKey, manifestKey A, A.envVar "EXPO_PUBLIC_GOOGLE_MAPS_API_KEY",
   A.envVar "GOOGLE_PLACES_API_KEY", A.envVar "REACT_NATIVE_GOOGLE_PLACES_API_KEY"]

/-- The sources that key resolution consults: all five when the manifest module was loaded,
otherwise the prop and the last two environment variables. -/
def consultedSources (P : Props) (A : Ambient) : List JsVal :=
  if A.ExpoConstants.truthy then specSources P A
  else [P.apiKey, A.envVar "GOOGLE_PLACES_API_KEY", A.envVar "REACT_NATIVE_GOOGLE_PLACES_API_KEY"]

/-! ## Invariant of the reachable states -/

/-- Ownership discipline of the two refs: at most one timeout is armed and the `debounceTimer`
ref holds its handle; every pending autocomplete request that has not been cancelled is the one
the `inFlight` ref holds; after unmount no timeout is armed and every pending autocomplete
request has been cancelled; handles are never reused. -/
structure Inv (s : State) : Prop where
  timer : s.timers = [] ∨ ∃ t, s.timers = [t] ∧ s.debounceTimer = some t.id
  owner : ∀ r ∈ s.acPending, r.cancelled = false → s.inFlight = some r.id
  deadTimers : s.mounted = false → s.timers = []
  deadRequests : s.mounted = false → ∀ r ∈ s.acPending, r.cancelled = true
  fresh : ∀ t ∈ s.timers, t.id < s.nextId

/-- Spec wording: a geometry location with `lat` and `lng`. -/
def hasLatLng (result : JsVal) : Bool :=
  let location := (result.optProp "geometry").optProp "location"
  !(location.optProp "lat").nullish && !(location.optProp "lng").nullish

/-- Whether an effect is a call of `onPlaceSelect`. -/
def Event.isPlaceSelect : Event → Bool
  | .onPlaceSelect _ => true
  | _ => false

/-- Whether an effect is a call of a host callback. -/
def Event.isHostCallback : Event → Bool
  | .onError _ => true
  | .setOuterRes _ => true
  | .onPlaceSelect _ => true
  | _ => false

/-! ## Sample configurations and traces -/

/-- A host that passes a key and all three callbacks and leaves the rest at the defaults. -/
def sampleProps : Props :=
  { apiKey := .str "k", minChars := none, language := .undefined, types := .undefined,
    debounceMs := none, hasOnPlaceSelect := true, hasSetOuterRes := true, hasOnError := true }

/-- A host that passes the callbacks but no key. -/
def keylessProps : Props := { sampleProps with apiKey := .undefined }

/-- Surroundings without the manifest module and without a `process` global. -/
def bareAmbient : Ambient :=
  { ExpoConstants := .undefined, process := .undefined, sessionToken := "tok" }

/-- Surroundings without the manifest module, where only the public client variable is set. -/
def publicEnvAmbient : Ambient :=
  { ExpoConstants := .undefined
    process := .obj [("env", .obj [("EXPO_PUBLIC_GOOGLE_MAPS_API_KEY", .str "k3")])]
    sessionToken := "tok" }

/-- Surroundings with the manifest module loaded, an unresolved placeholder in the manifest
and the public client variable set. -/
def expoAmbient : Ambient :=
  { ExpoConstants := .obj [("manifest", .null),
      ("expoConfig", .obj [("extra", .obj [("GOOGLE_PLACES_API_KEY", .str "$GOOGLE_MAPS_API_KEY")])])]
    process := .obj [("env", .obj [("EXPO_PUBLIC_GOOGLE_MAPS_API_KEY", .str "k3"),
      ("GOOGLE_PLACES_API_KEY", .str "k4")])]
    sessionToken := "tok" }

/-- The prediction of the walkthrough in the specification. -/
def parisItem : JsVal :=
  .obj [("place_id", .str "p1"), ("description", .str "Paris, France")]

/-- An autocomplete response body holding the one prediction. -/
def parisPredictions : JsVal := .obj [("predictions", .arr [parisItem])]

/-- A details response body with a location and an address. -/
def parisDetails : JsVal :=
  .obj [("result", .obj [("geometry", .obj [("location", .obj [("lat", .num 48.8566), ("lng", .num 2.3522)])]),
    ("formatted_address", .str "Paris, France")])]

/-- A details response body whose location object holds neither `lat` nor `lng`. -/
def emptyLocationDetails : JsVal :=
  .obj [("result", .obj [("geometry", .obj [("location", .obj [])])])]

/-- A details response body whose result has no geometry. -/
def noGeometryDetails : JsVal :=
  .obj [("result", .obj [("formatted_address", .str "Paris, France")])]

/-- The user types two characters and the debounce timeout fires: timeout 1, request 2. -/
def typedAndFired : List Action := [.changeText "Pa", .timerFire 1]

/-- The state with the one suggestion on display. -/
def showingParis : State :=
  run sampleProps bareAmbient State.init
    (typedAndFired ++ [.autocompleteSettle 2 (.success parisPredictions)])

/-- With the suggestion on display the user types on and the timeout fires: timeout 3,
request 4. -/
def retyped : List Action :=
  typedAndFired ++ [.autocompleteSettle 2 (.success parisPredictions), .changeText "Par",
    .timerFire 3]

/-- A second request is started while the first is pending: timeout 1, request 2, timeout 3,
request 4. -/
def superseding : List Action :=
  [.changeText "Pa", .timerFire 1, .changeText "Par", .timerFire 3]

/-- The user presses the suggestion on display (details request 3) and the host unmounts the
component while the details request is pending. -/
def pressedThenUnmounted : List Action :=
  typedAndFired ++ [.autocompleteSettle 2 (.success parisPredictions), .press 0, .unmount]

/-- The user deletes back to one character while the request for "Pa" is pending. -/
def deletedWhilePending : List Action := typedAndFired ++ [.changeText "P"]

/-- Without a key nothing is ever fetched: the list stays empty, no request is pending and none
was issued. -/
structure Keyless (s : State) : Prop where
  results : s.results = .arr []
  noAutocomplete : s.acPending = []
  noDetails : s.detPending = []
  noRequest : ∀ e ∈ s.log, e.isRequest = false

/-! ## Auxiliary facts -/

theorem truthy_undefined : JsVal.truthy .undefined = false := rfl

theorem nullish_undefined : JsVal.nullish .undefined = true := rfl

@[simp]
theorem setQuery_timers (s : State) (v : JsVal) : (setQuery s v).timers = s.timers := by
  unfold setQuery; split <;> rfl
@[simp]
theorem setQuery_debounceTimer (s : State) (v : JsVal) :
    (setQuery s v).debounceTimer = s.debounceTimer := by
  unfold setQuery; split <;> rfl
@[simp]
theorem setQuery_acPending (s : State) (v : JsVal) :
    (setQuery s v).acPending = s.acPending := by
  unfold setQuery; split <;> rfl
@[simp]
theorem setQuery_detPending (s : State) (v : JsVal) :
    (setQuery s v).detPending = s.detPending := by
  unfold setQuery; split <;> rfl
@[simp]
theorem setQuery_inFlight (s : State) (v : JsVal) : (setQuery s v).inFlight = s.inFlight := by
  unfold setQuery; split <;> rfl
@[simp]
theorem setQuery_mounted (s : State) (v : JsVal) : (setQuery s v).mounted = s.mounted := by
  unfold setQuery; split <;> rfl
@[simp]
theorem setQuery_nextId (s : State) (v : JsVal) : (setQuery s v).nextId = s.nextId := by
  unfold setQuery; split <;> rfl
@[simp]
theorem setQuery_results (s : State) (v : JsVal) : (setQuery s v).results = s.results := by
  unfold setQuery; split <;> rfl
@[simp]
theorem setQuery_loading (s : State) (v : JsVal) : (setQuery s v).loading = s.loading := by
  unfold setQuery; split <;> rfl
@[simp]
theorem setQuery_log (s : State) (v : JsVal) : (setQuery s v).log = s.log := by
  unfold setQuery; split <;> rfl
theorem setQuery_query (s : State) (v : JsVal) (hm : s.mounted = true) : (setQuery s v).query = v := by
  simp [setQuery, hm]

@[simp]
theorem setResults_timers (s : State) (v : JsVal) : (setResults s v).timers = s.timers := by
  unfold setResults; split <;> rfl
@[simp]
theorem setResults_debounceTimer (s : State) (v : JsVal) :
    (setResults s v).debounceTimer = s.debounceTimer := by
  unfold setResults; split <;> rfl
@[simp]
theorem setResults_acPending (s : State) (v : JsVal) :
    (setResults s v).acPending = s.acPending := by
  unfold setResults; split <;> rfl
@[simp]
theorem setResults_detPending (s : State) (v : JsVal) :
    (setResults s v).detPending = s.detPending := by
  unfold setResults; split <;> rfl
@[simp]
theorem setResults_inFlight (s : State) (v : JsVal) :
    (setResults s v).inFlight = s.inFlight := by
  unfold setResults; split <;> rfl
@[simp]
theorem setResults_mounted (s : State) (v : JsVal) :
    (setResults s v).mounted = s.mounted := by
  unfold setResults; split <;> rfl
@[simp]
theorem setResults_nextId (s : State) (v : JsVal) : (setResults s v).nextId = s.nextId := by
  unfold setResults; split <;> rfl
@[simp]
theorem setResults_query (s : State) (v : JsVal) : (setResults s v).query = s.query := by
  unfold setResults; split <;> rfl
@[simp]
theorem setResults_loading (s : State) (v : JsVal) :
    (setResults s v).loading = s.loading := by
  unfold setResults; split <;> rfl
@[simp]
theorem setResults_log (s : State) (v : JsVal) : (setResults s v).log = s.log := by
  unfold setResults; split <;> rfl
theorem setResults_results (s : State) (v : JsVal) (hm : s.mounted = true) :
    (setResults s v).results = v := by
  simp [setResults, hm]

@[simp]
theorem setLoading_timers (s : State) (b : Bool) : (setLoading s b).timers = s.timers := by
  unfold setLoading; split <;> rfl
@[simp]
theorem setLoading_debounceTimer (s : State) (b : Bool) :
    (setLoading s b).debounceTimer = s.debounceTimer := by
  unfold setLoading; split <;> rfl
@[simp]
theorem setLoading_acPending (s : State) (b : Bool) :
    (setLoading s b).acPending = s.acPending := by
  unfold setLoading; split <;> rfl
@[simp]
theorem setLoading_detPending (s : State) (b : Bool) :
    (setLoading s b).detPending = s.detPending := by
  unfold setLoading; split <;> rfl
@[simp]
theorem setLoading_inFlight (s : State) (b : Bool) :
    (setLoading s b).inFlight = s.inFlight := by
  unfold setLoading; split <;> rfl
@[simp]
theorem setLoading_mounted (s : State) (b : Bool) :
    (setLoading s b).mounted = s.mounted := by
  unfold setLoading; split <;> rfl
@[simp]
theorem setLoading_nextId (s : State) (b : Bool) : (setLoading s b).nextId = s.nextId := by
  unfold setLoading; split <;> rfl
@[simp]
theorem setLoading_query (s : State) (b : Bool) : (setLoading s b).query = s.query := by
  unfold setLoading; split <;> rfl
@[simp]
theorem setLoading_results (s : State) (b : Bool) :
    (setLoading s b).results = s.results := by
  unfold setLoading; split <;> rfl
@[simp]
theorem setLoading_log (s : State) (b : Bool) : (setLoading s b).log = s.log := by
  unfold setLoading; split <;> rfl
theorem setLoading_loading (s : State) (b : Bool) (hm : s.mounted = true) :
    (setLoading s b).loading = b := by
  simp [setLoading, hm]

@[simp]
theorem emit_timers (s : State) (es : List Event) : (emit s es).timers = s.timers := rfl
@[simp]
theorem emit_debounceTimer (s : State) (es : List Event) :
    (emit s es).debounceTimer = s.debounceTimer := rfl
@[simp]
theorem emit_acPending (s : State) (es : List Event) :
    (emit s es).acPending = s.acPending := rfl
@[simp]
theorem emit_detPending (s : State) (es : List Event) :
    (emit s es).detPending = s.detPending := rfl
@[simp]
theorem emit_inFlight (s : State) (es : List Event) : (emit s es).inFlight = s.inFlight := rfl
@[simp]
theorem emit_mounted (s : State) (es : List Event) : (emit s es).mounted = s.mounted := rfl
@[simp]
theorem emit_nextId (s : State) (es : List Event) : (emit s es).nextId = s.nextId := rfl
@[simp]
theorem emit_query (s : State) (es : List Event) : (emit s es).query = s.query := rfl
@[simp]
theorem emit_results (s : State) (es : List Event) : (emit s es).results = s.results := rfl
@[simp]
theorem emit_loading (s : State) (es : List Event) : (emit s es).loading = s.loading := rfl
@[simp]
theorem emit_log (s : State) (es : List Event) : (emit s es).log = s.log ++ es := rfl

@[simp]
theorem clearDebounce_debounceTimer (s : State) : (clearDebounce s).debounceTimer = none := by
  unfold clearDebounce; split <;> simp [*]
@[simp]
theorem clearDebounce_acPending (s : State) : (clearDebounce s).acPending = s.acPending := by
  unfold clearDebounce; split <;> rfl
@[simp]
theorem clearDebounce_detPending (s : State) :
    (clearDebounce s).detPending = s.detPending := by
  unfold clearDebounce; split <;> rfl
@[simp]
theorem clearDebounce_inFlight (s : State) : (clearDebounce s).inFlight = s.inFlight := by
  unfold clearDebounce; split <;> rfl
@[simp]
theorem clearDebounce_mounted (s : State) : (clearDebounce s).mounted = s.mounted := by
  unfold clearDebounce; split <;> rfl
@[simp]
theorem clearDebounce_nextId (s : State) : (clearDebounce s).nextId = s.nextId := by
  unfold clearDebounce; split <;> rfl
@[simp]
theorem clearDebounce_query (s : State) : (clearDebounce s).query = s.query := by
  unfold clearDebounce; split <;> rfl
@[simp]
theorem clearDebounce_results (s : State) : (clearDebounce s).results = s.results := by
  unfold clearDebounce; split <;> rfl
@[simp]
theorem clearDebounce_loading (s : State) : (clearDebounce s).loading = s.loading := by
  unfold clearDebounce; split <;> rfl
@[simp]
theorem clearDebounce_log (s : State) : (clearDebounce s).log = s.log := by
  unfold clearDebounce; split <;> rfl

@[simp]
theorem cancelInFlight_timers (s : State) : (cancelInFlight s).timers = s.timers := by
  unfold cancelInFlight; split <;> rfl
@[simp]
theorem cancelInFlight_debounceTimer (s : State) :
    (cancelInFlight s).debounceTimer = s.debounceTimer := by
  unfold cancelInFlight; split <;> rfl
@[simp]
theorem cancelInFlight_detPending (s : State) :
    (cancelInFlight s).detPending = s.detPending := by
  unfold cancelInFlight; split <;> rfl
@[simp]
theorem cancelInFlight_inFlight (s : State) : (cancelInFlight s).inFlight = s.inFlight := by
  unfold cancelInFlight; split <;> rfl
@[simp]
theorem cancelInFlight_mounted (s : State) : (cancelInFlight s).mounted = s.mounted := by
  unfold cancelInFlight; split <;> rfl
@[simp]
theorem cancelInFlight_nextId (s : State) : (cancelInFlight s).nextId = s.nextId := by
  unfold cancelInFlight; split <;> rfl
@[simp]
theorem cancelInFlight_query (s : State) : (cancelInFlight s).query = s.query := by
  unfold cancelInFlight; split <;> rfl
@[simp]
theorem cancelInFlight_results (s : State) : (cancelInFlight s).results = s.results := by
  unfold cancelInFlight; split <;> rfl
@[simp]
theorem cancelInFlight_loading (s : State) : (cancelInFlight s).loading = s.loading := by
  unfold cancelInFlight; split <;> rfl
@[simp]
theorem cancelInFlight_log (s : State) : (cancelInFlight s).log = s.log := by
  unfold cancelInFlight; split <;> rfl

/-- The invariant only reads the refs, the timeouts, the pending autocomplete requests and the
mounted flag. -/
theorem Inv.of_frame {s s' : State} (h : Inv s) (h1 : s'.timers = s.timers)
    (h2 : s'.debounceTimer = s.debounceTimer) (h3 : s'.acPending = s.acPending)
    (h4 : s'.inFlight = s.inFlight) (h5 : s'.mounted = s.mounted)
    (h6 : s.nextId ≤ s'.nextId) : Inv s' :=
  ⟨by rw [h1, h2]; exact h.timer, by rw [h3, h4]; exact h.owner,
   by rw [h1, h5]; exact h.deadTimers, by rw [h3, h5]; exact h.deadRequests,
   by rw [h1]; exact fun t ht => Nat.lt_of_lt_of_le (h.fresh t ht) h6⟩

theorem clearDebounce_timers (s : State) (h : Inv s) : (clearDebounce s).timers = [] := by
  unfold clearDebounce
  rcases h.timer with h0 | ⟨t, ht, hd⟩
  · cases hd : s.debounceTimer <;> simp [h0]
  · simp [hd, ht]

theorem cancelInFlight_cancelled (s : State)
    (h : ∀ r ∈ s.acPending, r.cancelled = false → s.inFlight = some r.id) :
    ∀ r ∈ (cancelInFlight s).acPending, r.cancelled = true := by
  intro r hr
  unfold cancelInFlight at hr
  cases hf : s.inFlight with
  | none =>
    simp only [hf] at hr
    cases hc : r.cancelled with
    | true => rfl
    | false => have := h r hr hc; simp [hf] at this
  | some rid =>
    simp only [hf, List.mem_map] at hr
    obtain ⟨r0, hr0, rfl⟩ := hr
    by_cases hid : r0.id = rid
    · simp [hid]
    · simp only [hid, if_false]
      cases hc : r0.cancelled with
      | true => rfl
      | false => have := h r0 hr0 hc; simp [hf] at this; exact absurd this.symm hid

theorem inv_init : Inv State.init :=
  ⟨Or.inl rfl, by simp [State.init], fun _ => rfl, by simp [State.init], by simp [State.init]⟩

theorem inv_fetchPlaces (P : Props) (s : State) (text : String) (h : Inv s) (hm : s.mounted = true) :
    Inv (fetchPlaces P s text) := by
  have hq : Inv (setQuery s (.str text)) := h.of_frame (by simp) (by simp) (by simp) (by simp) (by simp) (by simp)
  have ht := clearDebounce_timers _ hq
  unfold fetchPlaces
  simp only
  split
  · exact ⟨Or.inl (by simpa using ht), by simpa using h.owner, by simp [hm], by simp [hm],
      by simp [ht]⟩
  · exact ⟨Or.inr ⟨⟨s.nextId, text, max 0 P.debounceMsOr⟩, by simp [ht], by simp⟩,
      by simpa using h.owner, by simp [hm], by simp [hm], by simp [ht]⟩

theorem filter_fired (s : State) (h : Inv s) (id : Nat) (t : Timer)
    (hfind : s.timers.find? (fun t => t.id == id) = some t) :
    s.timers = [t] ∧ s.timers.filter (fun t => t.id != id) = [] ∧ s.mounted = true := by
  have hne : s.timers ≠ [] := by intro h0; simp [h0] at hfind
  have hm : s.mounted = true := by
    cases hmm : s.mounted with
    | true => rfl
    | false => exact absurd (h.deadTimers hmm) hne
  rcases h.timer with h0 | ⟨t0, ht0, _⟩
  · exact absurd h0 hne
  · rw [ht0] at hfind ⊢
    simp only [List.find?_cons] at hfind
    split at hfind
    · next hb =>
      simp only [Option.some.injEq] at hfind
      subst hfind
      exact ⟨rfl, by simp [List.filter, bne, hb], hm⟩
    · simp at hfind

theorem inv_onDebounce (P : Props) (A : Ambient) (s : State) (input : String) (h : Inv s)
    (ht : s.timers = []) (hm : s.mounted = true) : Inv (onDebounce P A s input) := by
  unfold onDebounce
  simp only
  split
  · exact h.of_frame (by simp) (by simp) (by simp) (by simp) (by simp) (by simp)
  · refine ⟨Or.inl (by simpa using ht), ?_, by simp [hm], by simp [hm], by simp [ht]⟩
    intro r hr hc
    simp only [List.mem_append, List.mem_singleton] at hr
    rcases hr with hr | rfl
    · have := cancelInFlight_cancelled (setLoading s true) (by simpa using h.owner) r hr
      simp [this] at hc
    · simp

theorem inv_step (P : Props) (A : Ambient) (s : State) (a : Action) (h : Inv s) :
    Inv (step P A s a) := by
  cases a with
  | changeText text =>
    simp only [step]
    split
    · next hm => exact inv_fetchPlaces P s text h hm
    · exact h
  | timerFire id =>
    simp only [step]
    split
    · next t hfind =>
      obtain ⟨_, hfil, hm⟩ := filter_fired s h id t hfind
      apply inv_onDebounce
      · exact ⟨Or.inl hfil, h.owner, fun _ => hfil, h.deadRequests, by simp [hfil]⟩
      · exact hfil
      · exact hm
    · exact h
  | autocompleteSettle id o =>
    simp only [step]
    split
    · next r hfind =>
      have h1 : Inv { s with acPending := s.acPending.filter (fun r => r.id != id) } :=
        ⟨h.timer, fun r hr => h.owner r (List.mem_of_mem_filter hr), h.deadTimers,
         fun hm r hr => h.deadRequests hm r (List.mem_of_mem_filter hr), h.fresh⟩
      unfold onAutocompleteSettled
      split
      · exact h1.of_frame (by simp) (by simp) (by simp) (by simp) (by simp) (by simp)
      · split <;> exact h1.of_frame (by simp) (by simp) (by simp) (by simp) (by simp) (by simp)
    · exact h
  | press row =>
    simp only [step]
    split
    · split
      · split
        · unfold handleSelect
          split
          · exact h
          · exact h.of_frame rfl rfl rfl rfl rfl (Nat.le_succ _)
        · exact h
      · exact h
    · exact h
  | detailsSettle id o =>
    simp only [step]
    split
    · next r hfind =>
      have h1 : Inv { s with detPending := s.detPending.filter (fun r => r.id != id) } :=
        h.of_frame rfl rfl rfl rfl rfl (Nat.le_refl _)
      unfold onDetailsSettled
      simp only
      split <;> exact h1.of_frame (by simp) (by simp) (by simp) (by simp) (by simp) (by simp)
    · exact h
  | unmount =>
    simp only [step, unmount]
    have ht0 : (cancelInFlight (clearDebounce s)).timers = [] := by
      simpa using clearDebounce_timers s h
    refine ⟨Or.inl ?_, ?_, fun _ => ?_, fun _ => ?_, by simp [clearDebounce_timers s h]⟩
    · simpa using clearDebounce_timers s h
    · intro r hr hc
      have := cancelInFlight_cancelled (clearDebounce s) (by simpa using h.owner) r hr
      simp [this] at hc
    · simpa using clearDebounce_timers s h
    · exact cancelInFlight_cancelled (clearDebounce s) (by simpa using h.owner)

theorem inv_run (P : Props) (A : Ambient) (acts : List Action) (s : State) (h : Inv s) :
    Inv (run P A s acts) := by
  induction acts generalizing s with
  | nil => exact h
  | cons a rest ih => exact ih _ (inv_step P A s a h)

theorem inv_reachable (P : Props) (A : Ambient) (s : State) (h : Reachable P A s) : Inv s := by
  obtain ⟨acts, rfl⟩ := h
  exact inv_run P A acts _ inv_init

/-! ## Key resolution -/

theorem resolvedApiKey_first (P : Props) (A : Ambient) :
    match firstNonEmpty (consultedSources P A) with
    | some k => resolvedApiKey P A = k ∧ k.truthy = true
    | none => (resolvedApiKey P A).truthy = false := by
  unfold consultedSources specSources firstNonEmpty resolvedApiKey getExpoKey manifestKey JsVal.or
  by_cases h0 : A.ExpoConstants.truthy = true <;>
  by_cases h1 : P.apiKey.truthy = true <;>
  by_cases h2 : A.rawExtra.truthy = true <;>
  by_cases h2p : A.rawExtra.strictEqStr PLACEHOLDER = true <;>
  by_cases h3 : (A.envVar "EXPO_PUBLIC_GOOGLE_MAPS_API_KEY").truthy = true <;>
  by_cases h4 : (A.envVar "GOOGLE_PLACES_API_KEY").truthy = true <;>
  by_cases h5 : (A.envVar "REACT_NATIVE_GOOGLE_PLACES_API_KEY").truthy = true <;>
  simp [List.find?, h0, h1, h2, h2p, h3, h4, h5, truthy_undefined]

theorem resolvedApiKey_none (P : Props) (A : Ambient)
    (h : ∀ v ∈ specSources P A, v.truthy = false) : (resolvedApiKey P A).truthy = false := by
  have hc : ∀ v ∈ consultedSources P A, v.truthy = false := by
    intro v hv
    apply h
    unfold consultedSources at hv
    split at hv
    · exact hv
    · simp only [specSources, List.mem_cons, List.mem_singleton, List.not_mem_nil, or_false] at hv ⊢
      rcases hv with hv | hv | hv <;> simp [hv]
  have hf : firstNonEmpty (consultedSources P A) = none := by
    unfold firstNonEmpty
    rw [List.find?_eq_none]
    intro v hv
    simp [hc v hv]
  have := resolvedApiKey_first P A
  rw [hf] at this
  exact this

/-- C1 (amended): key resolution returns the first non-empty credential of the sources it
consults, in priority order: all five sources (prop, manifest value unless it is the
placeholder, and the three environment variables) when the manifest module is available, and
only the prop and the variables GOOGLE_PLACES_API_KEY and REACT_NATIVE_GOOGLE_PLACES_API_KEY
when it is not; the result is empty exactly when every consulted source is empty. -/
theorem key_resolution_order (P : Props) (A : Ambient) :
    (consultedSources P A =
      if A.ExpoConstants.truthy then
        [P.apiKey, if A.rawExtra.strictEqStr "$GOOGLE_MAPS_API_KEY" then .undefined else A.rawExtra,
         A.envVar "EXPO_PUBLIC_GOOGLE_MAPS_API_KEY", A.envVar "GOOGLE_PLACES_API_KEY",
         A.envVar "REACT_NATIVE_GOOGLE_PLACES_API_KEY"]
      else [P.apiKey, A.envVar "GOOGLE_PLACES_API_KEY",
            A.envVar "REACT_NATIVE_GOOGLE_PLACES_API_KEY"]) ∧
    match firstNonEmpty (consultedSources P A) with
    | some k => resolvedApiKey P A = k ∧ k.truthy = true
    | none => (resolvedApiKey P A).truthy = false :=
  ⟨rfl, resolvedApiKey_first P A⟩

/-- C1 (counterexample): without the manifest module, with only EXPO_PUBLIC_GOOGLE_MAPS_API_KEY
set, the first non-empty of the five sources is that variable, yet no credential is resolved. -/
theorem key_resolution_skips_public_env :
    publicEnvAmbient.ExpoConstants.truthy = false ∧
    firstNonEmpty (specSources keylessProps publicEnvAmbient) = some (.str "k3") ∧
    resolvedApiKey keylessProps publicEnvAmbient = .undefined ∧
    (resolvedApiKey keylessProps publicEnvAmbient).truthy = false :=
  ⟨rfl, rfl, rfl, rfl⟩


/-- With the manifest module loaded, a placeholder in the manifest is passed over and the public
client variable wins over the later variables; the prop wins over everything. -/
theorem placeholder_passed_over :
    resolvedApiKey keylessProps expoAmbient = .str "k3" ∧
    resolvedApiKey sampleProps expoAmbient = .str "k" :=
  ⟨rfl, rfl⟩

/-! ## The text-change handler -/

@[simp]
theorem fetchPlaces_log (P : Props) (s : State) (text : String) :
    (fetchPlaces P s text).log = s.log := by
  unfold fetchPlaces; simp only; split <;> simp

@[simp]
theorem fetchPlaces_mounted (P : Props) (s : State) (text : String) :
    (fetchPlaces P s text).mounted = s.mounted := by
  unfold fetchPlaces; simp only; split <;> simp

@[simp]
theorem fetchPlaces_acPending (P : Props) (s : State) (text : String) :
    (fetchPlaces P s text).acPending = s.acPending := by
  unfold fetchPlaces; simp only; split <;> simp

@[simp]
theorem fetchPlaces_detPending (P : Props) (s : State) (text : String) :
    (fetchPlaces P s text).detPending = s.detPending := by
  unfold fetchPlaces; simp only; split <;> simp

theorem fetchPlaces_query (P : Props) (s : State) (text : String) (hm : s.mounted = true) :
    (fetchPlaces P s text).query = .str text := by
  unfold fetchPlaces; simp only; split <;> simp [setQuery_query, hm]

theorem fetchPlaces_short (P : Props) (s : State) (text : String) (h : Inv s)
    (hm : s.mounted = true) (hs : tooShort P text) :
    (fetchPlaces P s text).results = .arr [] ∧ (fetchPlaces P s text).timers = [] := by
  have hq : Inv (setQuery s (.str text)) :=
    h.of_frame (by simp) (by simp) (by simp) (by simp) (by simp) (by simp)
  have ht := clearDebounce_timers _ hq
  unfold fetchPlaces
  simp only [hs, if_true]
  exact ⟨setResults_results _ _ (by simp [hm]), by simpa using ht⟩

theorem fetchPlaces_long (P : Props) (s : State) (text : String) (h : Inv s)
    (hs : ¬ tooShort P text) :
    (fetchPlaces P s text).results = s.results ∧
    (fetchPlaces P s text).timers = [⟨s.nextId, text, max 0 (P.debounceMs.getD 250)⟩] := by
  have hq : Inv (setQuery s (.str text)) :=
    h.of_frame (by simp) (by simp) (by simp) (by simp) (by simp) (by simp)
  have ht := clearDebounce_timers _ hq
  unfold fetchPlaces
  simp only [hs, if_false]
  exact ⟨by simp, by simp [ht, Props.debounceMsOr, DEFAULT_DEBOUNCE_MS]⟩

/-- C2: in every reachable state of a mounted component, the text-change handler sets the query
to the text, issues no request and leaves none of the earlier timeouts armed; for a text that is
empty or shorter than minChars the suggestion list becomes empty and no timeout is armed;
otherwise the list is unchanged and exactly one timeout is armed, a new one, for this text, with
delay max(0, debounceMs), debounceMs defaulting to 250. -/
theorem fetchPlaces_contract (P : Props) (A : Ambient) (s : State) (text : String)
    (hr : Reachable P A s) (hm : s.mounted = true) :
    (fetchPlaces P s text).query = .str text ∧
    (fetchPlaces P s text).log = s.log ∧
    (∀ t ∈ s.timers, ∀ t' ∈ (fetchPlaces P s text).timers, t'.id ≠ t.id) ∧
    ((text = "" ∨ (utf16Length text : ℚ) < P.minChars.getD 2) →
      (fetchPlaces P s text).results = .arr [] ∧ (fetchPlaces P s text).timers = []) ∧
    (¬ (text = "" ∨ (utf16Length text : ℚ) < P.minChars.getD 2) →
      (fetchPlaces P s text).results = s.results ∧
      (fetchPlaces P s text).timers = [⟨s.nextId, text, max 0 (P.debounceMs.getD 250)⟩]) := by
  have h := inv_reachable P A s hr
  refine ⟨fetchPlaces_query P s text hm, fetchPlaces_log P s text, ?_,
    fun hs => fetchPlaces_short P s text h hm hs, fun hs => fetchPlaces_long P s text h hs⟩
  intro t ht t' ht'
  by_cases hs : tooShort P text
  · rw [(fetchPlaces_short P s text h hm hs).2] at ht'
    simp at ht'
  · rw [(fetchPlaces_long P s text h hs).2] at ht'
    simp only [List.mem_singleton] at ht'
    subst ht'
    exact (Nat.ne_of_lt (h.fresh t ht)).symm

/-- C2 (witness): on the first keystrokes "Pa" after mount one timeout is armed with the
default delay of 250, and on "P" none is. -/
theorem fetchPlaces_contract_witness :
    (fetchPlaces sampleProps State.init "Pa").query = .str "Pa" ∧
    (fetchPlaces sampleProps State.init "Pa").timers = [⟨1, "Pa", 250⟩] ∧
    (fetchPlaces sampleProps State.init "P").timers = [] :=
  ⟨(fetchPlaces_contract sampleProps bareAmbient State.init "Pa" ⟨[], rfl⟩ rfl).1,
   ((fetchPlaces_contract sampleProps bareAmbient State.init "Pa" ⟨[], rfl⟩ rfl).2.2.2.2
      (by decide)).2,
   ((fetchPlaces_contract sampleProps bareAmbient State.init "P" ⟨[], rfl⟩ rfl).2.2.2.1
      (by decide)).2⟩

/-! ## Bursts of text changes -/

theorem run_append (P : Props) (A : Ambient) (s : State) (xs ys : List Action) :
    run P A s (xs ++ ys) = run P A (run P A s xs) ys := by
  simp [run, List.foldl_append]

theorem run_changeTexts (P : Props) (A : Ambient) (texts : List String) (s : State)
    (hm : s.mounted = true) :
    (run P A s (texts.map .changeText)).mounted = true ∧
    (run P A s (texts.map .changeText)).log = s.log ∧
    (run P A s (texts.map .changeText)).acPending = s.acPending := by
  induction texts generalizing s with
  | nil => exact ⟨hm, rfl, rfl⟩
  | cons t rest ih =>
    have hstep : step P A s (.changeText t) = fetchPlaces P s t := by simp [step, hm]
    have := ih (fetchPlaces P s t) (by simp [hm])
    simp only [List.map_cons, run, List.foldl_cons, hstep] at this ⊢
    simpa using this

/-- C8: after any non-empty burst of text changes with no timeout firing in between, at most
one timeout is armed and no request was issued during the burst; if the last text is empty or
shorter than minChars no timeout is armed at all; otherwise the one armed timeout carries the
last text, and with a credential present its firing issues exactly one autocomplete request,
for the last text, and leaves no timeout armed. -/
theorem burst_last_text_only (P : Props) (A : Ambient) (s : State) (texts : List String)
    (last : String) (hr : Reachable P A s) (hm : s.mounted = true) :
    (run P A s ((texts ++ [last]).map .changeText)).timers.length ≤ 1 ∧
    (run P A s ((texts ++ [last]).map .changeText)).log = s.log ∧
    ((last = "" ∨ (utf16Length last : ℚ) < P.minChars.getD 2) →
      (run P A s ((texts ++ [last]).map .changeText)).timers = []) ∧
    (¬ (last = "" ∨ (utf16Length last : ℚ) < P.minChars.getD 2) →
      ∃ id, (run P A s ((texts ++ [last]).map .changeText)).timers =
          [⟨id, last, max 0 (P.debounceMs.getD 250)⟩] ∧
        ((resolvedApiKey P A).truthy = true →
          (step P A (run P A s ((texts ++ [last]).map .changeText)) (.timerFire id)).log =
            s.log ++ [.autocompleteGet last (resolvedApiKey P A) P.languageOr P.typesOr
              A.sessionToken] ∧
          (step P A (run P A s ((texts ++ [last]).map .changeText)) (.timerFire id)).timers
            = [])) := by
  have hinv := inv_run P A (texts.map .changeText) s (inv_reachable P A s hr)
  obtain ⟨hm1, hlog1, _⟩ := run_changeTexts P A texts s hm
  have hrun : run P A s ((texts ++ [last]).map .changeText) =
      fetchPlaces P (run P A s (texts.map .changeText)) last := by
    rw [List.map_append, run_append]
    show step P A _ (.changeText last) = _
    simp only [step, hm1, if_true]
  rw [hrun]
  by_cases hs : tooShort P last
  · have h2 := fetchPlaces_short P _ last hinv hm1 hs
    refine ⟨by simp [h2.2], by simp [hlog1], fun _ => h2.2, fun hn => absurd hs hn⟩
  · have h2 := fetchPlaces_long P _ last hinv hs
    refine ⟨by simp [h2.2], by simp [hlog1], fun hn => absurd hn hs, fun _ => ⟨_, h2.2, ?_⟩⟩
    intro hk
    simp only [step, h2.2, List.find?_cons, beq_self_eq_true, List.filter, bne_self_eq_false,
      onDebounce, hk, Bool.not_true, Bool.false_eq_true, if_false]
    simp [hlog1]

/-! ## Settling of the autocomplete request -/

theorem mounted_of_pending (s : State) (h : Inv s) (id : Nat) (r : AcRequest)
    (hfind : s.acPending.find? (fun r => r.id == id) = some r) (hc : r.cancelled = false) :
    s.mounted = true := by
  cases hm : s.mounted with
  | true => rfl
  | false =>
    have := h.deadRequests hm r (List.mem_of_find?_eq_some hfind)
    simp [hc] at this

/-- C3 (amended): when a pending, uncancelled autocomplete request settles with a response, the
suggestion list is replaced by the value of the predictions field as it is (an array keeps its
items and their order, possibly none), or by the empty list when that field is absent or null;
exactly that value is forwarded to setOuterRes when the callback is supplied, and nothing else
is reported. -/
theorem autocomplete_success (P : Props) (A : Ambient) (s : State) (id : Nat) (r : AcRequest)
    (data : JsVal) (hr : Reachable P A s)
    (hfind : s.acPending.find? (fun r => r.id == id) = some r) (hc : r.cancelled = false) :
    (step P A s (.autocompleteSettle id (.success data))).results =
      (if (data.optProp "predictions").nullish then .arr [] else data.optProp "predictions") ∧
    (∀ items, data.optProp "predictions" = .arr items →
      (step P A s (.autocompleteSettle id (.success data))).results = .arr items) ∧
    (step P A s (.autocompleteSettle id (.success data))).log =
      s.log ++ (if P.hasSetOuterRes then
        [.setOuterRes (step P A s (.autocompleteSettle id (.success data))).results] else []) := by
  have hm := mounted_of_pending s (inv_reachable P A s hr) id r hfind hc
  have hres : (step P A s (.autocompleteSettle id (.success data))).results =
      (if (data.optProp "predictions").nullish then .arr [] else data.optProp "predictions") := by
    simp [step, hfind, onAutocompleteSettled, hc, setResults, hm, predictionsOf, JsVal.coalesce]
  refine ⟨hres, ?_, ?_⟩
  · intro items hitems
    rw [hres, hitems]
    rfl
  · rw [hres]
    simp [step, hfind, onAutocompleteSettled, hc, predictionsOf, JsVal.coalesce]

/-- C3 (witness): the response of the walkthrough puts its one prediction on display and
forwards it to setOuterRes. -/
theorem autocomplete_success_witness :
    showingParis.results = .arr [parisItem] ∧
    showingParis.log =
      [.autocompleteGet "Pa" (.str "k") (.str "en") (.str "geocode") "tok",
       .setOuterRes (.arr [parisItem])] :=
  ⟨(autocomplete_success sampleProps bareAmbient
      (run sampleProps bareAmbient State.init typedAndFired) 2 ⟨2, "Pa", false⟩ parisPredictions
      ⟨typedAndFired, rfl⟩ rfl rfl).2.1 [parisItem] rfl,
   (autocomplete_success sampleProps bareAmbient
      (run sampleProps bareAmbient State.init typedAndFired) 2 ⟨2, "Pa", false⟩ parisPredictions
      ⟨typedAndFired, rfl⟩ rfl rfl).2.2⟩

/-- C3 (counterexample): a response whose predictions field is a string, not an array of
predictions, does not empty the suggestion list: the string itself becomes the list and is
forwarded to setOuterRes. -/
theorem malformed_predictions_kept :
    (run sampleProps bareAmbient State.init
      (typedAndFired ++ [.autocompleteSettle 2
        (.success (.obj [("predictions", .str "oops")]))])).results = .str "oops" ∧
    (run sampleProps bareAmbient State.init
      (typedAndFired ++ [.autocompleteSettle 2
        (.success (.obj [("predictions", .str "oops")]))])).results ≠ .arr [] ∧
    (run sampleProps bareAmbient State.init
      (typedAndFired ++ [.autocompleteSettle 2
        (.success (.obj [("predictions", .str "oops")]))])).log =
      [.autocompleteGet "Pa" (.str "k") (.str "en") (.str "geocode") "tok",
       .setOuterRes (.str "oops")] :=
  ⟨rfl, fun h => JsVal.noConfusion h, rfl⟩

/-- C6: when a pending, uncancelled autocomplete request fails, the suggestion list and the
query are what they were, the failure is warned about and passed to onError exactly once when
the callback is supplied, nothing else is reported, and the loading flag is false. -/
theorem autocomplete_failure (P : Props) (A : Ambient) (s : State) (id : Nat) (r : AcRequest)
    (err : JsError) (hr : Reachable P A s)
    (hfind : s.acPending.find? (fun r => r.id == id) = some r) (hc : r.cancelled = false) :
    (step P A s (.autocompleteSettle id (.failure err))).results = s.results ∧
    (step P A s (.autocompleteSettle id (.failure err))).query = s.query ∧
    (step P A s (.autocompleteSettle id (.failure err))).log =
      s.log ++ [.consoleWarn "Autocomplete error:" (some err)] ++
        (if P.hasOnError then [.onError err] else []) ∧
    (step P A s (.autocompleteSettle id (.failure err))).loading = false := by
  have hm := mounted_of_pending s (inv_reachable P A s hr) id r hfind hc
  simp [step, hfind, onAutocompleteSettled, hc, callOnError, setLoading, hm]

/-- C6 (witness): a network error on the request for "Par" while the Paris suggestion is on
display keeps that suggestion and the query, reports the error once and clears the loading
flag. -/
theorem autocomplete_failure_witness :
    (step sampleProps bareAmbient (run sampleProps bareAmbient State.init retyped)
      (.autocompleteSettle 4 (.failure (.error "Network Error")))).results = .arr [parisItem] ∧
    (step sampleProps bareAmbient (run sampleProps bareAmbient State.init retyped)
      (.autocompleteSettle 4 (.failure (.error "Network Error")))).query = .str "Par" ∧
    (step sampleProps bareAmbient (run sampleProps bareAmbient State.init retyped)
      (.autocompleteSettle 4 (.failure (.error "Network Error")))).loading = false :=
  ⟨(autocomplete_failure sampleProps bareAmbient (run sampleProps bareAmbient State.init retyped)
      4 ⟨4, "Par", false⟩ (.error "Network Error") ⟨retyped, rfl⟩ rfl rfl).1,
   (autocomplete_failure sampleProps bareAmbient (run sampleProps bareAmbient State.init retyped)
      4 ⟨4, "Par", false⟩ (.error "Network Error") ⟨retyped, rfl⟩ rfl rfl).2.1,
   (autocomplete_failure sampleProps bareAmbient (run sampleProps bareAmbient State.init retyped)
      4 ⟨4, "Par", false⟩ (.error "Network Error") ⟨retyped, rfl⟩ rfl rfl).2.2.2⟩

/-! ## The selection flow -/

theorem onDetailsSettled_noLocation (P : Props) (s : State) (item : JsVal) (o : Outcome)
    (h : hasLocation (fetchPlaceDetailsSettled P o).2 = false) :
    onDetailsSettled P s item o = emit s (fetchPlaceDetailsSettled P o).1 := by
  simp [onDetailsSettled, h]

theorem onDetailsSettled_location (P : Props) (s : State) (item : JsVal) (o : Outcome)
    (h : hasLocation (fetchPlaceDetailsSettled P o).2 = true) :
    onDetailsSettled P s item o =
      setResults (setQuery (emit (emit s (fetchPlaceDetailsSettled P o).1)
        (if P.hasOnPlaceSelect then
          [.onPlaceSelect (selectionOf item (fetchPlaceDetailsSettled P o).2)] else []))
        (item.getProp "description")) (.arr []) := by
  simp [onDetailsSettled, h]

theorem callOnError_events (P : Props) (err : JsError) :
    ∀ e ∈ callOnError P err, e.isPlaceSelect = false := by
  intro e he
  unfold callOnError at he
  split at he
  · simp only [List.mem_singleton] at he; subst he; rfl
  · simp at he

theorem fetchPlaceDetailsSettled_events (P : Props) (o : Outcome) :
    ∀ e ∈ (fetchPlaceDetailsSettled P o).1, e.isPlaceSelect = false := by
  intro e he
  unfold fetchPlaceDetailsSettled at he
  split at he
  · split at he
    · simp at he
    · simp only [List.mem_append, List.mem_singleton] at he
      rcases he with rfl | he
      · rfl
      · exact callOnError_events P _ e he
  · simp only [List.mem_append, List.mem_singleton] at he
    rcases he with rfl | he
    · rfl
    · exact callOnError_events P _ e he

theorem hasLocation_of_chain (P : Props) (data : JsVal) :
    hasLocation (fetchPlaceDetailsSettled P (.success data)).2 =
      (((data.optProp "result").optProp "geometry").optProp "location").truthy := by
  cases hn : data.nullish with
  | true =>
    simp [fetchPlaceDetailsSettled, JsVal.member, hn, JsVal.optProp, nullish_undefined]
    rfl
  | false =>
    simp [fetchPlaceDetailsSettled, JsVal.member, hn, JsVal.optProp, hasLocation]

/-- C4 (amended): while the component is mounted, when the details request of a selected item
settles: if it succeeds and its result has a truthy geometry.location, onPlaceSelect (when
supplied) is invoked exactly once with the item description, the lat and lng read from that
location (undefined where absent) and the formatted_address of the result, the query becomes the
item description and the suggestion list becomes empty; if it succeeds without a truthy
geometry.location, onPlaceSelect is not invoked and query and list are unchanged; if it fails,
the error is warned about and passed to onError when supplied, onPlaceSelect is not invoked and
query and list are unchanged.  Details resolution yields null when the request fails or the
response has a null or undefined body, and otherwise the result field of the body as
received. -/
theorem selection_flow (P : Props) (s : State) (item : JsVal) (hm : s.mounted = true) :
    (∀ data, (((data.optProp "result").optProp "geometry").optProp "location").truthy = true →
      (onDetailsSettled P s item (.success data)).log = s.log ++
        (if P.hasOnPlaceSelect then
          [.onPlaceSelect (.obj [("description", item.getProp "description"),
            ("location", .obj
              [("lat", (((data.getProp "result").getProp "geometry").getProp "location").getProp "lat"),
               ("lng", (((data.getProp "result").getProp "geometry").getProp "location").getProp "lng")]),
            ("address", (data.getProp "result").getProp "formatted_address")])]
         else []) ∧
      (onDetailsSettled P s item (.success data)).query = item.getProp "description" ∧
      (onDetailsSettled P s item (.success data)).results = .arr []) ∧
    (∀ data, (((data.optProp "result").optProp "geometry").optProp "location").truthy = false →
      (∃ es, (onDetailsSettled P s item (.success data)).log = s.log ++ es ∧
        ∀ e ∈ es, e.isPlaceSelect = false) ∧
      (onDetailsSettled P s item (.success data)).query = s.query ∧
      (onDetailsSettled P s item (.success data)).results = s.results) ∧
    (∀ err,
      (onDetailsSettled P s item (.failure err)).log =
        s.log ++ [.consoleWarn "Place details error:" (some err)] ++
          (if P.hasOnError then [.onError err] else []) ∧
      (onDetailsSettled P s item (.failure err)).query = s.query ∧
      (onDetailsSettled P s item (.failure err)).results = s.results) ∧
    (∀ err, (fetchPlaceDetailsSettled P (.failure err)).2 = .null) ∧
    (∀ data, (fetchPlaceDetailsSettled P (.success data)).2 =
      if data.nullish then .null else data.getProp "result") := by
  refine ⟨?_, ?_, ?_, fun _ => rfl, ?_⟩
  · intro data hloc
    have hd : data.nullish = false := by
      cases hn : data.nullish with
      | false => rfl
      | true => simp [JsVal.optProp, hn, nullish_undefined, truthy_undefined] at hloc
    have hr : (data.getProp "result").nullish = false := by
      cases hn : (data.getProp "result").nullish with
      | false => rfl
      | true => simp [JsVal.optProp, hd, hn, nullish_undefined, truthy_undefined] at hloc
    have hg : ((data.getProp "result").getProp "geometry").nullish = false := by
      cases hn : ((data.getProp "result").getProp "geometry").nullish with
      | false => rfl
      | true => simp [JsVal.optProp, hd, hr, hn, nullish_undefined, truthy_undefined] at hloc
    rw [onDetailsSettled_location P s item _ (by rw [hasLocation_of_chain]; exact hloc)]
    have h2 : (fetchPlaceDetailsSettled P (.success data)) = ([], data.getProp "result") := by
      simp [fetchPlaceDetailsSettled, JsVal.member, hd]
    rw [h2]
    refine ⟨?_, ?_, ?_⟩
    · simp [selectionOf]
    · rw [setResults_query]
      exact setQuery_query _ _ (by simp [hm])
    · exact setResults_results _ _ (by simp [hm])
  · intro data hloc
    rw [onDetailsSettled_noLocation P s item _ (by rw [hasLocation_of_chain]; exact hloc)]
    exact ⟨⟨_, rfl, fetchPlaceDetailsSettled_events P _⟩, rfl, rfl⟩
  · intro err
    rw [onDetailsSettled_noLocation P s item (.failure err) rfl]
    exact ⟨by simp [fetchPlaceDetailsSettled, callOnError], rfl, rfl⟩
  · intro data
    cases hn : data.nullish <;> simp [fetchPlaceDetailsSettled, JsVal.member, hn]

/-- C4 (witness): the walkthrough of the specification: selecting the Paris suggestion with a
details response holding a location hands the host the description, the coordinates and the
address, puts the description in the field and empties the list. -/
theorem selection_flow_witness :
    (onDetailsSettled sampleProps showingParis parisItem (.success parisDetails)).log =
      showingParis.log ++ [.onPlaceSelect (.obj [("description", .str "Paris, France"),
        ("location", .obj [("lat", .num 48.8566), ("lng", .num 2.3522)]),
        ("address", .str "Paris, France")])] ∧
    (onDetailsSettled sampleProps showingParis parisItem (.success parisDetails)).query =
      .str "Paris, France" ∧
    (onDetailsSettled sampleProps showingParis parisItem (.success parisDetails)).results =
      .arr [] :=
  (selection_flow sampleProps showingParis parisItem rfl).1 parisDetails rfl

/-- C4 (counterexample): a details response whose location holds neither lat nor lng still
invokes onPlaceSelect, with both coordinates undefined, and replaces the query; and a response
whose result has no geometry makes details resolution yield that result, not null. -/
theorem selection_without_coordinates :
    hasLatLng (emptyLocationDetails.getProp "result") = false ∧
    (onDetailsSettled sampleProps showingParis parisItem (.success emptyLocationDetails)).log =
      showingParis.log ++ [.onPlaceSelect (.obj [("description", .str "Paris, France"),
        ("location", .obj [("lat", .undefined), ("lng", .undefined)]),
        ("address", .undefined)])] ∧
    showingParis.query = .str "Pa" ∧
    (onDetailsSettled sampleProps showingParis parisItem (.success emptyLocationDetails)).query =
      .str "Paris, France" ∧
    (fetchPlaceDetailsSettled sampleProps (.success noGeometryDetails)).2 =
      .obj [("formatted_address", .str "Paris, France")] :=
  ⟨rfl, rfl, rfl, rfl, rfl⟩

/-! ## No credential -/

theorem keyless_init : Keyless State.init :=
  ⟨rfl, rfl, rfl, by simp [State.init]⟩

theorem keyless_onDebounce (P : Props) (A : Ambient) (s : State) (input : String)
    (hk : (resolvedApiKey P A).truthy = false) :
    onDebounce P A s input =
      emit s ([.consoleWarn "Google Places API key is missing. Pass apiKey prop or set Expo/ENV key."
        none] ++ (if P.hasOnError then
          [.onError (.error "Google Places API key is missing. Pass apiKey prop or set Expo/ENV key.")]
          else [])) := by
  simp [onDebounce, hk, callOnError, MISSING_KEY_MSG]

theorem keyless_step (P : Props) (A : Ambient) (s : State) (a : Action)
    (hk : (resolvedApiKey P A).truthy = false) (h : Keyless s) : Keyless (step P A s a) := by
  cases a with
  | changeText text =>
    simp only [step]
    split
    · next hm =>
      refine ⟨?_, by simpa using h.noAutocomplete, by simpa using h.noDetails,
        by simpa using h.noRequest⟩
      unfold fetchPlaces
      simp only
      split
      · exact setResults_results _ _ (by simp [hm])
      · simpa using h.results
    · exact h
  | timerFire id =>
    simp only [step]
    split
    · rw [keyless_onDebounce P A _ _ hk]
      refine ⟨h.results, h.noAutocomplete, h.noDetails, ?_⟩
      intro e he
      simp only [emit_log, List.mem_append, List.mem_singleton] at he
      rcases he with he | rfl | he
      · exact h.noRequest e he
      · rfl
      · split at he
        · simp only [List.mem_singleton] at he; subst he; rfl
        · simp at he
    · exact h
  | autocompleteSettle id o => simp only [step, h.noAutocomplete, List.find?_nil]; exact h
  | press row =>
    simp only [step, h.results, List.get?_nil]
    split <;> exact h
  | detailsSettle id o => simp only [step, h.noDetails, List.find?_nil]; exact h
  | unmount =>
    simp only [step, unmount]
    refine ⟨by simpa using h.results, ?_, by simpa using h.noDetails, by simpa using h.noRequest⟩
    show (cancelInFlight (clearDebounce s)).acPending = []
    unfold cancelInFlight
    split <;> simp [h.noAutocomplete]

theorem keyless_run (P : Props) (A : Ambient) (acts : List Action) (s : State)
    (hk : (resolvedApiKey P A).truthy = false) (h : Keyless s) : Keyless (run P A s acts) := by
  induction acts generalizing s with
  | nil => exact h
  | cons a rest ih => exact ih _ (keyless_step P A s a hk h)

/-- C5: with all five credential sources empty, after every sequence of events the suggestion
list is empty and no HTTP request has been issued, and every firing of an armed debounce
timeout warns about the missing key and reports the missing-key error to onError when that
callback is supplied, and does nothing else observable. -/
theorem keyless_never_fetches (P : Props) (A : Ambient)
    (hno : ∀ v ∈ specSources P A, v.truthy = false) (acts : List Action) :
    (run P A State.init acts).results = .arr [] ∧
    (∀ e ∈ (run P A State.init acts).log, e.isRequest = false) ∧
    (∀ id t, (run P A State.init acts).timers.find? (fun t => t.id == id) = some t →
      (step P A (run P A State.init acts) (.timerFire id)).log =
        (run P A State.init acts).log ++
          ([.consoleWarn "Google Places API key is missing. Pass apiKey prop or set Expo/ENV key."
            none] ++ (if P.hasOnError then
            [.onError (.error "Google Places API key is missing. Pass apiKey prop or set Expo/ENV key.")]
            else [])) ∧
      (step P A (run P A State.init acts) (.timerFire id)).results = .arr []) := by
  have hk := resolvedApiKey_none P A hno
  have h := keyless_run P A acts State.init hk keyless_init
  refine ⟨h.results, h.noRequest, ?_⟩
  intro id t hfind
  simp only [step, hfind]
  rw [keyless_onDebounce P A _ _ hk]
  exact ⟨rfl, h.results⟩

/-- C5 (witness): a host without any key types "Pa"; when the timeout fires the only effects
are the warning and the error callback, and the list is empty. -/
theorem keyless_never_fetches_witness :
    (run keylessProps bareAmbient State.init typedAndFired).results = .arr [] ∧
    (step keylessProps bareAmbient (run keylessProps bareAmbient State.init [.changeText "Pa"])
      (.timerFire 1)).log =
      [.consoleWarn "Google Places API key is missing. Pass apiKey prop or set Expo/ENV key." none,
       .onError (.error "Google Places API key is missing. Pass apiKey prop or set Expo/ENV key.")] :=
  ⟨(keyless_never_fetches keylessProps bareAmbient (by decide) typedAndFired).1,
   ((keyless_never_fetches keylessProps bareAmbient (by decide) [.changeText "Pa"]).2.2 1
      ⟨1, "Pa", 250⟩ rfl).1⟩

/-- C8 (witness): typing "P", "Pa", "Par", "Pari" in one burst after mount leaves one timeout
armed and has issued no request. -/
theorem burst_last_text_only_witness :
    (run sampleProps bareAmbient State.init
      ((["P", "Pa", "Par"] ++ ["Pari"]).map .changeText)).timers.length ≤ 1 ∧
    (run sampleProps bareAmbient State.init
      ((["P", "Pa", "Par"] ++ ["Pari"]).map .changeText)).log = [] :=
  ⟨(burst_last_text_only sampleProps bareAmbient State.init ["P", "Pa", "Par"] "Pari"
      ⟨[], rfl⟩ rfl).1,
   (burst_last_text_only sampleProps bareAmbient State.init ["P", "Pa", "Par"] "Pari"
      ⟨[], rfl⟩ rfl).2.1⟩

/-! ## Traces on which the component departs from its specification -/

/-- C7 (code behaviour): request 2 is pending when request 4 is started, which cancels it; the
loading flag is then true; when the cancelled request 2 settles, its `finally` clears the
loading flag although request 4 is still in flight and uncancelled. -/
theorem superseded_settle_clears_loading :
    (run sampleProps bareAmbient State.init superseding).loading = true ∧
    ((run sampleProps bareAmbient State.init superseding).acPending.map
      fun r => (r.id, r.input, r.cancelled)) = [(2, "Pa", true), (4, "Par", false)] ∧
    (run sampleProps bareAmbient State.init
      (superseding ++ [.autocompleteSettle 2 (.failure (.error "New request superseded"))])).loading
      = false ∧
    ((run sampleProps bareAmbient State.init
      (superseding ++ [.autocompleteSettle 2 (.failure (.error "New request superseded"))])).acPending.map
      fun r => (r.id, r.input, r.cancelled)) = [(4, "Par", false)] := by
  decide

/-- C9 (code behaviour): the details request is not cancelled by the cleanup; when it settles
after unmount with a location, onPlaceSelect is invoked on the unmounted component, and when it
fails, onError is. -/
theorem details_callback_after_unmount :
    (run sampleProps bareAmbient State.init pressedThenUnmounted).mounted = false ∧
    ((run sampleProps bareAmbient State.init pressedThenUnmounted).detPending.map
      fun r => r.id) = [3] ∧
    (run sampleProps bareAmbient State.init
      (pressedThenUnmounted ++ [.detailsSettle 3 (.success parisDetails)])).log =
      (run sampleProps bareAmbient State.init pressedThenUnmounted).log ++
        [.onPlaceSelect (.obj [("description", .str "Paris, France"),
          ("location", .obj [("lat", .num 48.8566), ("lng", .num 2.3522)]),
          ("address", .str "Paris, France")])] ∧
    (run sampleProps bareAmbient State.init
      (pressedThenUnmounted ++ [.detailsSettle 3 (.failure (.error "Network Error"))])).log =
      (run sampleProps bareAmbient State.init pressedThenUnmounted).log ++
        [.consoleWarn "Place details error:" (some (.error "Network Error")),
         .onError (.error "Network Error")] :=
  ⟨rfl, rfl, rfl, rfl⟩

/-- C10 (code behaviour): the request for "Pa" is pending when the user deletes back to "P";
the text change empties the list but does not cancel the request, and when its response
arrives the list is populated although the query is shorter than minChars. -/
theorem stale_response_populates_short_query :
    ((run sampleProps bareAmbient State.init deletedWhilePending).acPending.map
      fun r => (r.id, r.input, r.cancelled)) = [(2, "Pa", false)] ∧
    (run sampleProps bareAmbient State.init
      (deletedWhilePending ++ [.autocompleteSettle 2 (.success parisPredictions)])).query =
      .str "P" ∧
    tooShort sampleProps "P" ∧
    (run sampleProps bareAmbient State.init
      (deletedWhilePending ++ [.autocompleteSettle 2 (.success parisPredictions)])).results =
      .arr [parisItem] ∧
    (run sampleProps bareAmbient State.init
      (deletedWhilePending ++ [.autocompleteSettle 2 (.success parisPredictions)])).results ≠
      .arr [] :=
  ⟨rfl, rfl, by decide, rfl, fun h => JsVal.noConfusion h (fun h' => List.noConfusion h')⟩

end PlacesAutocomplete
